import Mathlib

/-!
Shallow embedding of the pglock distributed-lock client
(src/pglock/client.go).  The database is modelled as a map from lock
names to rows together with the state of the companion sequence
(nextval returns the current value and bumps it); every transactional
operation of the client becomes a pure function on this state, executed
atomically, which is justified by the serializable isolation level the
code requests for every transaction.  Durations are Go time.Duration
values, i.e. integer nanoseconds.
-/

namespace Pglock

/-- Error kinds used by the cirello.io/errors classifier
(errors.NotExist, errors.Unavailable, errors.FailedPrecondition). -/
inductive ErrKind
  | notExist
  | unavailable
  | failedPrecondition
  deriving DecidableEq, Repr

/-- Driver-level errors reaching typedError: sql.ErrNoRows, a
net.OpError, a pq.Error carrying an SQLSTATE code, or anything else. -/
inductive DriverError
  | noRows
  | netOp
  | pq (code : String)
  | generic (tag : Nat)
  deriving DecidableEq, Repr

/-- The closed error set of pglock (client.go lines 46-66) plus the
two shapes typedError can produce: an error wrapped with a kind
(errors.E(kind, err, ...)) and a driver error returned unchanged. -/
inductive LockError
  | notPostgreSQLDriver
  | notAcquired
  | lockAlreadyReleased
  | lockNotFound
  | durationTooSmall
  | classified (k : ErrKind) (e : DriverError)
  | raw (e : DriverError)
  deriving DecidableEq, Repr

/-- typedError (client.go lines 490-507): sql.ErrNoRows is classified
NotExist, a net.OpError Unavailable, a pq error with SQLSTATE 40001
FailedPrecondition; every other error is returned unchanged. -/
def typedError : Option DriverError → Option LockError
  | none => none
  | some .noRows => some (.classified .notExist .noRows)
  | some .netOp => some (.classified .unavailable .netOp)
  | some (.pq code) =>
      if code = "40001" then some (.classified .failedPrecondition (.pq code))
      else some (.raw (.pq code))
  | some (.generic t) => some (.raw (.generic t))

/-- errors.Is(errors.FailedPrecondition, err) on the modelled errors. -/
def isFailedPrecondition : LockError → Bool
  | .classified .failedPrecondition _ => true
  | _ => false

/-- A row of the lock table: record_version_number BIGINT (none models
SQL NULL, i.e. a free lock) and the opaque data payload. -/
structure Row where
  rvn : Option Int
  data : List Nat
  deriving DecidableEq, Repr

/-- The database state: the lock table keyed by name, plus the state of
the tableName_rvn sequence; seq is the value the next nextval call
returns.  nextval is non-transactional in PostgreSQL, so the sequence
advances even when the surrounding transaction does not commit. -/
structure DB where
  rows : String → Option Row
  seq : Int

/-- All record version numbers stored in the table were drawn from the
sequence earlier, so they are strictly below the next sequence value.
Every reachable database state satisfies this. -/
def wellFormed (db : DB) : Prop :=
  ∀ n r v, db.rows n = some r → r.rvn = some v → v < db.seq

/-- The logger carried by the client; New installs a discarding logger
by default and WithLogger overrides it. -/
inductive Logger
  | discard
  | custom (tag : Nat)
  deriving DecidableEq, Repr

/-- Client (client.go lines 71-77): configuration owned by a lock
client.  The database connection pool is outside the model. -/
structure Client where
  tableName : String
  leaseDuration : Int
  heartbeatFrequency : Int
  log : Logger
  deriving DecidableEq, Repr

/-- ClientOption values (client.go lines 464-488). -/
inductive ClientOption
  | withLogger (lg : Logger)
  | withLeaseDuration (d : Int)
  | withHeartbeatFrequency (d : Int)
  | withCustomTable (t : String)
  deriving DecidableEq, Repr

/-- Application of one ClientOption, as each option's closure does. -/
def applyClientOption (c : Client) : ClientOption → Client
  | .withLogger lg => { c with log := lg }
  | .withLeaseDuration d => { c with leaseDuration := d }
  | .withHeartbeatFrequency d => { c with heartbeatFrequency := d }
  | .withCustomTable t => { c with tableName := t }

/-- The drivers a *sql.DB handle can be backed by; the client accepts
only the PostgreSQL (lib/pq) driver. -/
inductive Driver
  | postgres
  | otherDriver
  deriving DecidableEq, Repr

/-- Default configuration installed by New before options run:
table "locks", lease 20s, heartbeat 5s, discarding logger
(client.go lines 34-44 and 86-92; durations in nanoseconds). -/
def defaultClient : Client :=
  { tableName := "locks"
    leaseDuration := 20000000000
    heartbeatFrequency := 5000000000
    log := Logger.discard }

/-- isDurationTooSmall (client.go lines 102-104). -/
def isDurationTooSmall (c : Client) : Bool :=
  decide (c.heartbeatFrequency > 0 ∧ c.leaseDuration < 2 * c.heartbeatFrequency)

/-- New (client.go lines 80-100): rejects a nil handle or a non-pq
driver, applies the options over the defaults, then rejects a lease
shorter than twice the heartbeat. -/
def New (db : Option Driver) (opts : List ClientOption) : Except LockError Client :=
  match db with
  | none => .error .notPostgreSQLDriver
  | some d =>
      if d ≠ Driver.postgres then .error .notPostgreSQLDriver
      else
        let c := opts.foldl applyClientOption defaultClient
        if isDurationTooSmall c then .error .durationTooSmall
        else .ok c

/-- The client-side lock handle (spec section 3; the Lock struct lives
in the repository's lock.go, whose fields and zero values are fixed by
their uses throughout client.go).  heartbeatCancelled records that the
handle's heartbeatCancel function has been invoked. -/
structure Lock where
  name : String
  recordVersionNumber : Int
  data : List Nat
  leaseDuration : Int
  heartbeatCancelled : Bool
  isReleased : Bool
  replaceData : Bool
  failIfLocked : Bool
  keepOnRelease : Bool
  deriving DecidableEq, Repr

/-- Modelled from the spec: the per-call lock options enumerated in
section 4.3 — data payload, custom lease, failIfLocked, keepOnRelease,
replaceData (their constructors live in the missing lock.go). -/
inductive LockOption
  | withData (d : List Nat)
  | withLease (d : Int)
  | withFailIfLocked (b : Bool)
  | withKeepOnRelease (b : Bool)
  | withReplaceData (b : Bool)
  deriving DecidableEq, Repr

/-- Modelled from the spec: each lock option sets the corresponding
handle field and touches nothing else. -/
def applyLockOption (l : Lock) : LockOption → Lock
  | .withData d => { l with data := d }
  | .withLease d => { l with leaseDuration := d }
  | .withFailIfLocked b => { l with failIfLocked := b }
  | .withKeepOnRelease b => { l with keepOnRelease := b }
  | .withReplaceData b => { l with replaceData := b }

/-- newLock (client.go lines 106-117): zero-valued handle carrying the
client's lease duration, then the per-call options applied in order. -/
def newLock (c : Client) (name : String) (opts : List LockOption) : Lock :=
  opts.foldl applyLockOption
    { name := name
      recordVersionNumber := 0
      data := []
      leaseDuration := c.leaseDuration
      heartbeatCancelled := false
      isReleased := false
      replaceData := false
      failIfLocked := false
      keepOnRelease := false }

/-- Modelled from the spec: the handle accessor IsReleased() reads the
isReleased flag (spec section 6.2; defined in the missing lock.go). -/
def Lock.IsReleased (l : Lock) : Bool :=
  l.isReleased

/-- The effect on the table of the INSERT ... ON CONFLICT upsert of
storeAcquire (client.go lines 198-213): insert (name, rvn, data) when
the row is absent; on conflict update the row to the new rvn — keeping
its data unless replaceData — but only when its record_version_number
IS NULL or equals the handle's last observed one. -/
def upsertAcquire (rows : String → Option Row) (l : Lock) (rvn : Int) :
    String → Option Row :=
  fun n =>
    if n = l.name then
      match rows l.name with
      | none => some ⟨some rvn, l.data⟩
      | some r =>
          if r.rvn = none ∨ r.rvn = some l.recordVersionNumber then
            some ⟨some rvn, if l.replaceData then l.data else r.data⟩
          else some r
    else rows n

/-- storeAcquire (client.go lines 183-233): draw a fresh rvn from the
sequence, run the upsert, re-read the row FOR UPDATE; when the re-read
rvn differs from the drawn one store it on the handle and fail with
ErrNotAcquired (the transaction is not committed, but nextval has
already advanced the sequence); otherwise commit and record the new
rvn and the re-read data on the handle.  The two error fallbacks model
Scan failing on a missing row or a NULL rvn; neither is reachable from
a well-formed state. -/
def storeAcquire (db : DB) (l : Lock) : DB × Lock × Option LockError :=
  let rvn := db.seq
  let rows1 := upsertAcquire db.rows l rvn
  match rows1 l.name with
  | none => (⟨db.rows, db.seq + 1⟩, l, some (.classified .notExist .noRows))
  | some row =>
      match row.rvn with
      | none => (⟨db.rows, db.seq + 1⟩, l, some (.raw (.generic 0)))
      | some actualRVN =>
          if actualRVN ≠ rvn then
            (⟨db.rows, db.seq + 1⟩,
             { l with recordVersionNumber := actualRVN }, some .notAcquired)
          else
            (⟨rows1, db.seq + 1⟩,
             { l with recordVersionNumber := rvn, data := row.data }, none)

/-- storeRelease (client.go lines 292-338): a CAS update clears the
rvn where name and rvn match the handle; zero rows affected means the
lock is already gone — mark the handle released, cancel the heartbeat
and report ErrLockAlreadyReleased; otherwise delete the (now free) row
unless keepOnRelease, commit, mark released, cancel the heartbeat. -/
def storeRelease (db : DB) (l : Lock) : DB × Lock × Option LockError :=
  match db.rows l.name with
  | some r =>
      if r.rvn = some l.recordVersionNumber then
        let rows2 : String → Option Row :=
          if l.keepOnRelease then
            fun n => if n = l.name then some ⟨none, r.data⟩ else db.rows n
          else
            fun n => if n = l.name then none else db.rows n
        (⟨rows2, db.seq⟩,
         { l with isReleased := true, heartbeatCancelled := true }, none)
      else
        (db, { l with isReleased := true, heartbeatCancelled := true },
         some .lockAlreadyReleased)
  | none =>
      (db, { l with isReleased := true, heartbeatCancelled := true },
       some .lockAlreadyReleased)

/-- ReleaseContext (client.go lines 285-290): a handle that is already
released short-circuits to ErrLockAlreadyReleased before any database
work; otherwise storeRelease runs (through the retry wrapper, which is
the identity on storeRelease's outcomes since none of them is
classified FailedPrecondition). -/
def releaseContext (db : DB) (l : Lock) : DB × Lock × Option LockError :=
  if l.IsReleased then (db, l, some .lockAlreadyReleased)
  else storeRelease db l

/-- storeHeartbeat (client.go lines 366-403): draw a fresh rvn, CAS it
into the row where name and rvn match the handle; zero rows affected
means the lock is lost — set isReleased and report
ErrLockAlreadyReleased; otherwise commit and store the new rvn on the
handle. -/
def storeHeartbeat (db : DB) (l : Lock) : DB × Lock × Option LockError :=
  let rvn := db.seq
  match db.rows l.name with
  | some r =>
      if r.rvn = some l.recordVersionNumber then
        (⟨fun n => if n = l.name then some ⟨some rvn, r.data⟩ else db.rows n,
          db.seq + 1⟩,
         { l with recordVersionNumber := rvn }, none)
      else
        (⟨db.rows, db.seq + 1⟩, { l with isReleased := true },
         some .lockAlreadyReleased)
  | none =>
      (⟨db.rows, db.seq + 1⟩, { l with isReleased := true },
       some .lockAlreadyReleased)

/-- The retry wrapper (client.go lines 453-462) over an operation whose
k-th invocation yields the outcome f k (none is success).  The loop
re-issues the operation while the outcome is classified
FailedPrecondition; fuel bounds the unbounded Go loop, and the result
carries the surfaced outcome together with how many attempts ran. -/
def retryAttempts (f : Nat → Option LockError) : Nat → Nat → Option (Option LockError × Nat)
  | _, 0 => none
  | k, fuel + 1 =>
      match f k with
      | some e =>
          if isFailedPrecondition e then retryAttempts f (k + 1) fuel
          else some (some e, k + 1)
      | none => some (none, k + 1)

/-- Result of the Acquire wait loop: the final state threaded through
the attempts, whether a (non-nil) handle is returned to the caller,
the returned error, the total time slept and the number of attempts. -/
structure LoopResult (α : Type) where
  state : α
  handleReturned : Bool
  error : Option LockError
  slept : Int
  attempts : Nat
  deriving Repr

/-- Accounting for one more round of the wait loop: one lease duration
slept and one more attempt made before the rest of the loop ran. -/
def sleepBump {α : Type} (lease : Int) (r : LoopResult α) : LoopResult α :=
  ⟨r.state, r.handleReturned, r.error, r.slept + lease, r.attempts + 1⟩

/-- AcquireContext's wait loop (client.go lines 148-170), parametric in
the per-attempt step (retry of tryAcquire, which may be influenced by
concurrent clients).  Before each attempt the select observes whether
the caller's context is done and then returns a nil handle with
ErrNotAcquired.  A NotAcquired attempt returns the handle and the error
at once under failIfLocked, and otherwise sleeps one lease duration and
loops; any other error returns a nil handle; success returns the
handle.  fuel bounds the unbounded Go loop. -/
def acquireLoop {α : Type} (fil : Bool) (lease : Int) (cancelled : Nat → Bool)
    (attempt : Nat → α → α × Option LockError) : Nat → α → Nat → Option (LoopResult α)
  | _, _, 0 => none
  | k, s, fuel + 1 =>
      if cancelled k then some ⟨s, false, some .notAcquired, 0, 0⟩
      else
        match attempt k s with
        | (s', some .notAcquired) =>
            if fil then some ⟨s', true, some .notAcquired, 0, 1⟩
            else
              Option.map (sleepBump lease)
                (acquireLoop fil lease cancelled attempt (k + 1) s' fuel)
        | (s', some e) => some ⟨s', false, some e, 0, 1⟩
        | (s', none) => some ⟨s', true, none, 0, 1⟩

/-- One attempt of the wait loop against the shared database: interf k
is the interference of the other clients committed before attempt k,
after which storeAcquire runs atomically (serializable isolation). -/
def acquireAttempt (interf : Nat → DB → DB) :
    Nat → DB × Lock → (DB × Lock) × Option LockError :=
  fun k s =>
    let db1 := interf k s.1
    let r := storeAcquire db1 s.2
    ((r.1, r.2.1), r.2.2)

/-- AcquireContext (client.go lines 148-170) on a concrete handle: the
wait loop driven by storeAcquire attempts, with the handle's own
failIfLocked flag and lease duration. -/
def acquireContext (cancelled : Nat → Bool) (interf : Nat → DB → DB)
    (db : DB) (l : Lock) (fuel : Nat) : Option (LoopResult (DB × Lock)) :=
  acquireLoop l.failIfLocked l.leaseDuration cancelled (acquireAttempt interf) 0 (db, l) fuel

/-- A serialized history of storeAcquire transactions by arbitrary
claimant handles, in database commit order (serializable isolation
makes every concurrent execution equivalent to such a history).  Each
entry records the handle state after the attempt and its outcome. -/
def runAcquires : DB → List Lock → List (Lock × Option LockError)
  | _, [] => []
  | db, l :: ls =>
      let r := storeAcquire db l
      (r.2.1, r.2.2) :: runAcquires r.1 ls

/-- The data the row holds after a successful acquire: the handle's
payload on a fresh insert, and on a conflicting update the handle's
payload exactly when replaceData, else the stored one. -/
def acquiredData (db : DB) (l : Lock) : List Nat :=
  match db.rows l.name with
  | none => l.data
  | some r => if l.replaceData then l.data else r.data

/-- The condition under which the spec says a single storeAcquire
attempt succeeds: row absent, free, or held at the handle's last
observed record version number. -/
def acquireWouldSucceed (db : DB) (l : Lock) : Prop :=
  match db.rows l.name with
  | none => True
  | some r => r.rvn = none ∨ r.rvn = some l.recordVersionNumber

/-- Whether the CAS update of release/heartbeat (WHERE name = $1 AND
record_version_number = $2) matches the row, i.e. affects one row. -/
def casMatches (rows : String → Option Row) (name : String) (rvn : Int) : Bool :=
  match rows name with
  | some r => decide (r.rvn = some rvn)
  | none => false

/-! Concrete states used to exercise the definitions. -/

/-- An empty lock table with the sequence about to return 1. -/
def dbEmpty : DB := ⟨fun _ => none, 1⟩

/-- A table holding one lock row named "job" at rvn 1 with payload
[7], sequence about to return 2. -/
def dbJob : DB := ⟨fun n => if n = "job" then some ⟨some 1, [7]⟩ else none, 2⟩

/-- A table holding one free row named "job" (rvn NULL). -/
def dbJobFree : DB := ⟨fun n => if n = "job" then some ⟨none, [7]⟩ else none, 2⟩

/-- A fresh claimant handle for "job" (zero record version number). -/
def lockA : Lock :=
  { name := "job", recordVersionNumber := 0, data := [9]
    leaseDuration := 20000000000, heartbeatCancelled := false
    isReleased := false, replaceData := false
    failIfLocked := false, keepOnRelease := false }

/-- A claimant handle for "job" that has observed rvn 1. -/
def lockB : Lock :=
  { lockA with recordVersionNumber := 1 }

/-- A caller context that is done from the second wait-loop iteration
onward. -/
def cancelTwo : Nat → Bool := fun k => decide (2 ≤ k)

/-- An attempt step that always finds the lock held by someone else. -/
def attemptBusy : Nat → Unit → Unit × Option LockError :=
  fun _ _ => ((), some .notAcquired)

/-- A valid option list: lease 100ns, heartbeat 30ns (ratio ≥ 2). -/
def optsW : List ClientOption :=
  [.withLeaseDuration 100, .withHeartbeatFrequency 30]

/-- A handle whose release flag is already set. -/
def lockReleased : Lock := { lockA with isReleased := true }

/-- A holder handle for "job" at rvn 1 that keeps the row on release. -/
def lockBKeep : Lock := { lockB with keepOnRelease := true }

/-- A fresh claimant for "job" in fail-if-locked mode. -/
def lockAFail : Lock := { lockA with failIfLocked := true }

/-- The fail-if-locked claimant after observing the holder's rvn 1. -/
def lockAFailObs : Lock := { lockAFail with recordVersionNumber := 1 }

/-- dbJob after one storeAcquire attempt that did not commit: only the
sequence advanced. -/
def dbJobBumped : DB := ⟨dbJob.rows, 3⟩

/-- A caller context that is done immediately. -/
def cancelAll : Nat → Bool := fun _ => true

/-- No interference from concurrent clients between attempts. -/
def interfId : Nat → DB → DB := fun _ db => db

/-- An operation whose first run hits a serialization failure
(SQLSTATE 40001) and whose rerun finds the lock held. -/
def flakySerialization : Nat → Option LockError := fun k =>
  if k = 0 then some (.classified .failedPrecondition (.pq "40001"))
  else some .notAcquired

/-! Helper lemmas about single storeAcquire transactions. -/

theorem upsertAcquire_ne (rows : String → Option Row) (l : Lock) (rvn : Int)
    (n : String) (h : n ≠ l.name) : upsertAcquire rows l rvn n = rows n := by
  simp [upsertAcquire, h]

theorem storeAcquire_absent (db : DB) (l : Lock) (h : db.rows l.name = none) :
    storeAcquire db l =
      (⟨upsertAcquire db.rows l db.seq, db.seq + 1⟩,
       { l with recordVersionNumber := db.seq, data := l.data }, none) := by
  simp [storeAcquire, upsertAcquire, h]

theorem storeAcquire_update (db : DB) (l : Lock) (r : Row)
    (h : db.rows l.name = some r)
    (hc : r.rvn = none ∨ r.rvn = some l.recordVersionNumber) :
    storeAcquire db l =
      (⟨upsertAcquire db.rows l db.seq, db.seq + 1⟩,
       { l with recordVersionNumber := db.seq,
                data := if l.replaceData then l.data else r.data }, none) := by
  simp [storeAcquire, upsertAcquire, h, hc]

theorem storeAcquire_blocked (db : DB) (l : Lock) (r : Row) (v : Int)
    (h : db.rows l.name = some r) (hv : r.rvn = some v)
    (hne : v ≠ l.recordVersionNumber) (hfresh : v ≠ db.seq) :
    storeAcquire db l =
      (⟨db.rows, db.seq + 1⟩,
       { l with recordVersionNumber := v }, some .notAcquired) := by
  simp [storeAcquire, upsertAcquire, h, hv, hne, hfresh]

theorem storeAcquire_seq (db : DB) (l : Lock) :
    (storeAcquire db l).1.seq = db.seq + 1 := by
  cases h : db.rows l.name with
  | none => simp [storeAcquire_absent db l h]
  | some r =>
      by_cases hc : r.rvn = none ∨ r.rvn = some l.recordVersionNumber
      · simp [storeAcquire_update db l r h hc]
      · cases hv : r.rvn with
        | none => exact absurd (Or.inl hv) hc
        | some v =>
            have hne : v ≠ l.recordVersionNumber := by
              intro hx
              exact hc (Or.inr (hx ▸ hv))
            by_cases hfresh : v = db.seq
            · subst hfresh
              simp [storeAcquire, upsertAcquire, h, hv, hne]
            · simp [storeAcquire_blocked db l r v h hv hne hfresh]

theorem storeAcquire_success_rvn (db : DB) (l : Lock)
    (hs : (storeAcquire db l).2.2 = none) :
    (storeAcquire db l).2.1.recordVersionNumber = db.seq := by
  cases h : db.rows l.name with
  | none => simp [storeAcquire_absent db l h]
  | some r =>
      by_cases hc : r.rvn = none ∨ r.rvn = some l.recordVersionNumber
      · simp [storeAcquire_update db l r h hc]
      · cases hv : r.rvn with
        | none => exact absurd (Or.inl hv) hc
        | some v =>
            have hne : v ≠ l.recordVersionNumber := by
              intro hx
              exact hc (Or.inr (hx ▸ hv))
            by_cases hfresh : v = db.seq
            · subst hfresh
              simp [storeAcquire, upsertAcquire, h, hv, hne]
            · rw [storeAcquire_blocked db l r v h hv hne hfresh] at hs
              simp at hs

theorem runAcquires_length (db : DB) (ls : List Lock) :
    (runAcquires db ls).length = ls.length := by
  induction ls generalizing db with
  | nil => rfl
  | cons l ls ih => simp [runAcquires, ih]

theorem runAcquires_success_rvn (ls : List Lock) (db : DB) (i : Nat)
    (h : i < (runAcquires db ls).length)
    (hs : ((runAcquires db ls).get ⟨i, h⟩).2 = none) :
    ((runAcquires db ls).get ⟨i, h⟩).1.recordVersionNumber = db.seq + i := by
  induction ls generalizing db i with
  | nil => simp [runAcquires] at h
  | cons l ls ih =>
      cases i with
      | zero =>
          simp only [runAcquires, List.get] at hs ⊢
          simpa using storeAcquire_success_rvn db l hs
      | succ i =>
          have h' : i < (runAcquires (storeAcquire db l).1 ls).length := by
            have hh := h
            simp only [runAcquires, List.length_cons] at hh
            omega
          simp only [runAcquires, List.get] at hs ⊢
          have hrec := ih (storeAcquire db l).1 i h' hs
          rw [storeAcquire_seq] at hrec
          rw [hrec]
          push_cast
          ring

theorem dbJob_wf : wellFormed dbJob := by
  intro n r v hr hv
  by_cases h : n = "job"
  · subst h
    simp [dbJob] at hr
    subst hr
    simp at hv
    simp [dbJob]
    omega
  · simp [dbJob, h] at hr

theorem storeRelease_isReleased (db : DB) (l : Lock) :
    (storeRelease db l).2.1.isReleased = true := by
  cases h : db.rows l.name with
  | none => simp [storeRelease, h]
  | some r =>
      by_cases hc : r.rvn = some l.recordVersionNumber <;>
        simp [storeRelease, h, hc]

theorem releaseContext_isReleased (db : DB) (l : Lock) :
    (releaseContext db l).2.1.isReleased = true := by
  cases h : l.isReleased with
  | false => simp [releaseContext, Lock.IsReleased, h, storeRelease_isReleased]
  | true => simp [releaseContext, Lock.IsReleased, h]

theorem retryAttempts_not_fp (f : Nat → Option LockError) :
    ∀ fuel k r n, retryAttempts f k fuel = some (r, n) →
      ∀ e, r = some e → isFailedPrecondition e = false := by
  intro fuel
  induction fuel with
  | zero =>
      intro k r n h
      simp [retryAttempts] at h
  | succ fuel ih =>
      intro k r n h e he
      subst he
      cases hf : f k with
      | none =>
          rw [retryAttempts, hf] at h
          simp at h
      | some e' =>
          simp only [retryAttempts, hf] at h
          by_cases hfp : isFailedPrecondition e'
          · rw [if_pos hfp] at h
            exact ih (k + 1) (some e) n h e rfl
          · rw [if_neg hfp] at h
            simp at h
            obtain ⟨he', _⟩ := h
            rw [← he']
            exact Bool.eq_false_iff.mpr hfp

theorem storeAcquire_isReleased (db : DB) (l : Lock) :
    (storeAcquire db l).2.1.isReleased = l.isReleased := by
  cases h : db.rows l.name with
  | none => simp [storeAcquire_absent db l h]
  | some r =>
      by_cases hc : r.rvn = none ∨ r.rvn = some l.recordVersionNumber
      · simp [storeAcquire_update db l r h hc]
      · cases hv : r.rvn with
        | none => exact absurd (Or.inl hv) hc
        | some v =>
            have hne : v ≠ l.recordVersionNumber := fun hx => hc (Or.inr (hx ▸ hv))
            by_cases hfresh : v = db.seq
            · subst hfresh
              simp [storeAcquire, upsertAcquire, h, hv, hne]
            · simp [storeAcquire_blocked db l r v h hv hne hfresh]

theorem storeHeartbeat_isReleased (db : DB) (l : Lock) (h : l.isReleased = true) :
    (storeHeartbeat db l).2.1.isReleased = true := by
  cases hr : db.rows l.name with
  | none => simp [storeHeartbeat, hr]
  | some r =>
      by_cases hc : r.rvn = some l.recordVersionNumber <;>
        simp [storeHeartbeat, hr, hc, h]

theorem storeHeartbeat_lost (db : DB) (l : Lock)
    (h : (storeHeartbeat db l).2.2 = some .lockAlreadyReleased) :
    (storeHeartbeat db l).2.1.isReleased = true := by
  cases hr : db.rows l.name with
  | none => simp [storeHeartbeat, hr]
  | some r =>
      by_cases hc : r.rvn = some l.recordVersionNumber
      · simp [storeHeartbeat, hr, hc] at h
      · simp [storeHeartbeat, hr, hc]

theorem applyLockOption_isReleased (l : Lock) (o : LockOption) :
    (applyLockOption l o).isReleased = l.isReleased := by
  cases o <;> rfl

theorem foldl_lockOptions_isReleased (opts : List LockOption) (l : Lock) :
    (opts.foldl applyLockOption l).isReleased = l.isReleased := by
  induction opts generalizing l with
  | nil => rfl
  | cons o opts ih => rw [List.foldl_cons, ih, applyLockOption_isReleased]

theorem newLock_isReleased (c : Client) (name : String) (opts : List LockOption) :
    (newLock c name opts).isReleased = false := by
  unfold newLock
  rw [foldl_lockOptions_isReleased]

theorem acquireLoop_preserves {α : Type} (P : α → Prop) (fil : Bool) (lease : Int)
    (cancelled : Nat → Bool) (attempt : Nat → α → α × Option LockError)
    (hP : ∀ k s, P s → P (attempt k s).1) :
    ∀ fuel k s res, acquireLoop fil lease cancelled attempt k s fuel = some res →
      P s → P res.state := by
  intro fuel
  induction fuel with
  | zero =>
      intro k s res h
      simp [acquireLoop] at h
  | succ fuel ih =>
      intro k s res h hs
      rw [acquireLoop] at h
      by_cases hc : cancelled k
      · rw [if_pos hc] at h
        simp at h
        rw [← h]
        exact hs
      · rw [if_neg hc] at h
        rcases ha : attempt k s with ⟨s', e⟩
        rw [ha] at h
        have hs' : P s' := by
          have h2 := hP k s hs
          rw [ha] at h2
          exact h2
        cases e with
        | none =>
            simp at h
            rw [← h]
            exact hs'
        | some err =>
            cases err with
            | notAcquired =>
                by_cases hf : fil
                · simp [hf] at h
                  rw [← h]
                  exact hs'
                · simp only [Bool.not_eq_true] at hf
                  subst hf
                  simp [Option.map_eq_some'] at h
                  obtain ⟨res', hrec, hbump⟩ := h
                  rw [← hbump]
                  exact ih (k + 1) s' res' hrec hs'
            | notPostgreSQLDriver => simp at h; rw [← h]; exact hs'
            | lockAlreadyReleased => simp at h; rw [← h]; exact hs'
            | lockNotFound => simp at h; rw [← h]; exact hs'
            | durationTooSmall => simp at h; rw [← h]; exact hs'
            | classified kk ee => simp at h; rw [← h]; exact hs'
            | raw ee => simp at h; rw [← h]; exact hs'

theorem acquireLoop_handle_error {α : Type} (fil : Bool) (lease : Int)
    (cancelled : Nat → Bool) (attempt : Nat → α → α × Option LockError) :
    ∀ fuel k (s : α) res, acquireLoop fil lease cancelled attempt k s fuel = some res →
      res.handleReturned = true → res.error ≠ none →
      res.error = some .notAcquired ∧ fil = true := by
  intro fuel
  induction fuel with
  | zero =>
      intro k s res h
      simp [acquireLoop] at h
  | succ fuel ih =>
      intro k s res h hh he
      rw [acquireLoop] at h
      by_cases hc : cancelled k
      · rw [if_pos hc] at h
        simp at h
        rw [← h] at hh
        simp at hh
      · rw [if_neg hc] at h
        rcases ha : attempt k s with ⟨s', e⟩
        rw [ha] at h
        cases e with
        | none =>
            simp at h
            rw [← h] at he
            simp at he
        | some err =>
            cases err with
            | notAcquired =>
                by_cases hf : fil
                · simp [hf] at h
                  rw [← h]
                  exact ⟨rfl, hf⟩
                · simp only [Bool.not_eq_true] at hf
                  subst hf
                  simp [Option.map_eq_some'] at h
                  obtain ⟨res', hrec, hbump⟩ := h
                  rw [← hbump] at hh he
                  exact absurd (ih (k + 1) s' res' hrec hh he).2 (by simp)
            | notPostgreSQLDriver => simp at h; rw [← h] at hh; simp at hh
            | lockAlreadyReleased => simp at h; rw [← h] at hh; simp at hh
            | lockNotFound => simp at h; rw [← h] at hh; simp at hh
            | durationTooSmall => simp at h; rw [← h] at hh; simp at hh
            | classified kk ee => simp at h; rw [← h] at hh; simp at hh
            | raw ee => simp at h; rw [← h] at hh; simp at hh

/-! Claim theorems. -/

/-- C1: Mutual exclusion.  For any lock name n, in any serialized
history of concurrent storeAcquire transactions (serializable
isolation reduces every concurrent execution to such a history), at
most one attempt returns a non-error result per record version number,
and every successful returner observes a strictly greater rvn than any
previous successful returner for n. -/
theorem acquire_mutual_exclusion (db : DB) (ls : List Lock) (n : String) (i j : Nat)
    (hi : i < (runAcquires db ls).length) (hj : j < (runAcquires db ls).length)
    (hij : i < j)
    (hni : ((runAcquires db ls).get ⟨i, hi⟩).1.name = n)
    (hnj : ((runAcquires db ls).get ⟨j, hj⟩).1.name = n)
    (hsi : ((runAcquires db ls).get ⟨i, hi⟩).2 = none)
    (hsj : ((runAcquires db ls).get ⟨j, hj⟩).2 = none) :
    ((runAcquires db ls).get ⟨i, hi⟩).1.recordVersionNumber <
      ((runAcquires db ls).get ⟨j, hj⟩).1.recordVersionNumber ∧
    ((runAcquires db ls).get ⟨i, hi⟩).1.recordVersionNumber ≠
      ((runAcquires db ls).get ⟨j, hj⟩).1.recordVersionNumber := by
  have h1 := runAcquires_success_rvn ls db i hi hsi
  have h2 := runAcquires_success_rvn ls db j hj hsj
  rw [h1, h2]
  refine ⟨by omega, by omega⟩

/-- Witness for C1: two successive successful acquisitions of "job"
from the empty table produce strictly increasing, distinct rvns. -/
theorem acquire_mutual_exclusion_witness :
    ((runAcquires dbEmpty [lockA, lockB]).get ⟨0, by decide⟩).1.name = "job" ∧
    ((runAcquires dbEmpty [lockA, lockB]).get ⟨1, by decide⟩).1.name = "job" ∧
    ((runAcquires dbEmpty [lockA, lockB]).get ⟨0, by decide⟩).2 = none ∧
    ((runAcquires dbEmpty [lockA, lockB]).get ⟨1, by decide⟩).2 = none ∧
    (((runAcquires dbEmpty [lockA, lockB]).get ⟨0, by decide⟩).1.recordVersionNumber <
       ((runAcquires dbEmpty [lockA, lockB]).get ⟨1, by decide⟩).1.recordVersionNumber ∧
     ((runAcquires dbEmpty [lockA, lockB]).get ⟨0, by decide⟩).1.recordVersionNumber ≠
       ((runAcquires dbEmpty [lockA, lockB]).get ⟨1, by decide⟩).1.recordVersionNumber) :=
  ⟨by decide, by decide, by decide, by decide,
   acquire_mutual_exclusion dbEmpty [lockA, lockB] "job" 0 1 (by decide) (by decide)
     (by decide) (by decide) (by decide) (by decide) (by decide)⟩

/-- C2: Postcondition of a single storeAcquire attempt on a well-formed
table.  It succeeds exactly when the row was absent, free (rvn NULL) or
held at the handle's last observed rvn; on success the handle records
the freshly drawn rvn and the row's data, the row holding the handle's
payload only when replaceData (else the existing one); when the re-read
rvn differs from the drawn one, the observed rvn is stored on the
handle and the attempt fails with NotAcquired. -/
theorem storeAcquire_postcondition (db : DB) (l : Lock) (hwf : wellFormed db) :
    ((storeAcquire db l).2.2 = none ↔ acquireWouldSucceed db l) ∧
    ((storeAcquire db l).2.2 = none →
      (storeAcquire db l).2.1.recordVersionNumber = db.seq ∧
      (storeAcquire db l).2.1.data = acquiredData db l ∧
      (storeAcquire db l).1.rows l.name = some ⟨some db.seq, acquiredData db l⟩) ∧
    (∀ r v, db.rows l.name = some r → r.rvn = some v → v ≠ l.recordVersionNumber →
      storeAcquire db l =
        (⟨db.rows, db.seq + 1⟩, { l with recordVersionNumber := v },
         some .notAcquired)) := by
  refine ⟨?_, ?_, ?_⟩
  · cases h : db.rows l.name with
    | none => simp [storeAcquire_absent db l h, acquireWouldSucceed, h]
    | some r =>
        by_cases hc : r.rvn = none ∨ r.rvn = some l.recordVersionNumber
        · simp [storeAcquire_update db l r h hc, acquireWouldSucceed, h, hc]
        · cases hv : r.rvn with
          | none => exact absurd (Or.inl hv) hc
          | some v =>
              have hne : v ≠ l.recordVersionNumber := fun hx => hc (Or.inr (hx ▸ hv))
              have hfresh : v ≠ db.seq := by
                have := hwf l.name r v h hv
                omega
              simp [storeAcquire_blocked db l r v h hv hne hfresh,
                acquireWouldSucceed, h, hv, hne]
  · intro hs
    cases h : db.rows l.name with
    | none =>
        refine ⟨?_, ?_, ?_⟩ <;>
          simp [storeAcquire_absent db l h, acquiredData, h, upsertAcquire]
    | some r =>
        by_cases hc : r.rvn = none ∨ r.rvn = some l.recordVersionNumber
        · refine ⟨?_, ?_, ?_⟩ <;>
            simp [storeAcquire_update db l r h hc, acquiredData, h, upsertAcquire, hc]
        · cases hv : r.rvn with
          | none => exact absurd (Or.inl hv) hc
          | some v =>
              have hne : v ≠ l.recordVersionNumber := fun hx => hc (Or.inr (hx ▸ hv))
              have hfresh : v ≠ db.seq := by
                have := hwf l.name r v h hv
                omega
              rw [storeAcquire_blocked db l r v h hv hne hfresh] at hs
              simp at hs
  · intro r v hr hv hne
    have hfresh : v ≠ db.seq := by
      have := hwf l.name r v hr hv
      omega
    exact storeAcquire_blocked db l r v hr hv hne hfresh

/-- Witness for C2: the postcondition instantiated at the table holding
"job" at rvn 1 and a fresh claimant whose observed rvn is 0. -/
theorem storeAcquire_postcondition_witness :
    wellFormed dbJob ∧
    (((storeAcquire dbJob lockA).2.2 = none ↔ acquireWouldSucceed dbJob lockA) ∧
     ((storeAcquire dbJob lockA).2.2 = none →
       (storeAcquire dbJob lockA).2.1.recordVersionNumber = dbJob.seq ∧
       (storeAcquire dbJob lockA).2.1.data = acquiredData dbJob lockA ∧
       (storeAcquire dbJob lockA).1.rows lockA.name =
         some ⟨some dbJob.seq, acquiredData dbJob lockA⟩) ∧
     (∀ r v, dbJob.rows lockA.name = some r → r.rvn = some v →
       v ≠ lockA.recordVersionNumber →
       storeAcquire dbJob lockA =
         (⟨dbJob.rows, dbJob.seq + 1⟩, { lockA with recordVersionNumber := v },
          some .notAcquired))) :=
  ⟨dbJob_wf, storeAcquire_postcondition dbJob lockA dbJob_wf⟩

/-- C3: Acquire wait-loop behaviour.  A done caller context makes the
loop return ErrNotAcquired (with no handle) in either mode; with
failIfLocked the first NotAcquired attempt is returned immediately
after exactly one attempt and no sleep; without failIfLocked a
NotAcquired attempt makes the loop sleep exactly one lease duration
and run again. -/
theorem acquire_wait_loop {α : Type} (lease : Int) (cancelled : Nat → Bool)
    (attempt : Nat → α → α × Option LockError) (fuel : Nat) :
    (∀ (fil : Bool) (k : Nat) (s : α), cancelled k = true →
      acquireLoop fil lease cancelled attempt k s (fuel + 1) =
        some ⟨s, false, some .notAcquired, 0, 0⟩) ∧
    (∀ (k : Nat) (s s' : α), cancelled k = false →
      attempt k s = (s', some .notAcquired) →
      acquireLoop true lease cancelled attempt k s (fuel + 1) =
        some ⟨s', true, some .notAcquired, 0, 1⟩) ∧
    (∀ (k : Nat) (s s' : α), cancelled k = false →
      attempt k s = (s', some .notAcquired) →
      acquireLoop false lease cancelled attempt k s (fuel + 1) =
        Option.map (sleepBump lease)
          (acquireLoop false lease cancelled attempt (k + 1) s' fuel)) := by
  refine ⟨?_, ?_, ?_⟩
  · intro fil k s hc
    simp [acquireLoop, hc]
  · intro k s s' hc ha
    simp [acquireLoop, hc, ha]
  · intro k s s' hc ha
    simp [acquireLoop, hc, ha]

/-- Witness for C3: the three wait-loop behaviours exercised on the
always-busy attempt with a context done from iteration 2 onward. -/
theorem acquire_wait_loop_witness :
    (cancelTwo 2 = true ∧
     acquireLoop true 5 cancelTwo attemptBusy 2 () 1 =
       some ⟨(), false, some .notAcquired, 0, 0⟩) ∧
    (cancelTwo 0 = false ∧ attemptBusy 0 () = ((), some .notAcquired) ∧
     acquireLoop true 5 cancelTwo attemptBusy 0 () 1 =
       some ⟨(), true, some .notAcquired, 0, 1⟩) ∧
    (cancelTwo 1 = false ∧ attemptBusy 1 () = ((), some .notAcquired) ∧
     acquireLoop false 5 cancelTwo attemptBusy 1 () 1 =
       Option.map (sleepBump 5) (acquireLoop false 5 cancelTwo attemptBusy 2 () 0)) :=
  ⟨⟨by decide, (acquire_wait_loop 5 cancelTwo attemptBusy 0).1 true 2 () (by decide)⟩,
   ⟨by decide, by decide,
    (acquire_wait_loop 5 cancelTwo attemptBusy 0).2.1 0 () () (by decide) (by decide)⟩,
   ⟨by decide, by decide,
    (acquire_wait_loop 5 cancelTwo attemptBusy 0).2.2 1 () () (by decide) (by decide)⟩⟩

/-- C4: Client construction.  New fails with NotPostgreSQLDriver when
the database handle is nil or its driver is not PostgreSQL; it fails
with DurationTooSmall exactly when the configured heartbeat frequency
is positive and the lease duration is below twice the heartbeat
frequency; otherwise it succeeds with the options applied over the
defaults, which are table "locks", lease 20s, heartbeat 5s and a
discarding logger. -/
theorem new_validation (opts : List ClientOption) :
    (New none opts = .error .notPostgreSQLDriver) ∧
    (∀ d, d ≠ Driver.postgres → New (some d) opts = .error .notPostgreSQLDriver) ∧
    (New (some .postgres) opts = .error .durationTooSmall ↔
      0 < (opts.foldl applyClientOption defaultClient).heartbeatFrequency ∧
      (opts.foldl applyClientOption defaultClient).leaseDuration <
        2 * (opts.foldl applyClientOption defaultClient).heartbeatFrequency) ∧
    (¬(0 < (opts.foldl applyClientOption defaultClient).heartbeatFrequency ∧
        (opts.foldl applyClientOption defaultClient).leaseDuration <
          2 * (opts.foldl applyClientOption defaultClient).heartbeatFrequency) →
      New (some .postgres) opts = .ok (opts.foldl applyClientOption defaultClient)) ∧
    defaultClient =
      { tableName := "locks", leaseDuration := 20000000000
        heartbeatFrequency := 5000000000, log := Logger.discard } := by
  have hN : New (some .postgres) opts =
      (if isDurationTooSmall (opts.foldl applyClientOption defaultClient) then
        .error .durationTooSmall
      else .ok (opts.foldl applyClientOption defaultClient)) := by
    simp [New]
  refine ⟨rfl, ?_, ?_, ?_, rfl⟩
  · intro d hd
    cases d with
    | postgres => exact absurd rfl hd
    | otherDriver => rfl
  · rw [hN]
    by_cases hc : isDurationTooSmall (opts.foldl applyClientOption defaultClient)
    · have hcond := of_decide_eq_true hc
      simp [hc, hcond]
    · have hcond := of_decide_eq_false (Bool.of_not_eq_true hc)
      simp [hc, hcond]
  · intro hcond
    rw [hN, if_neg]
    unfold isDurationTooSmall
    simpa using hcond

/-- Witness for C4: construction rejected for a nil handle and a
non-PostgreSQL driver, accepted at lease 100ns and heartbeat 30ns. -/
theorem new_validation_witness :
    (New none optsW = .error .notPostgreSQLDriver) ∧
    (Driver.otherDriver ≠ Driver.postgres ∧
      New (some .otherDriver) optsW = .error .notPostgreSQLDriver) ∧
    (New (some .postgres) optsW = .error .durationTooSmall ↔
      0 < (optsW.foldl applyClientOption defaultClient).heartbeatFrequency ∧
      (optsW.foldl applyClientOption defaultClient).leaseDuration <
        2 * (optsW.foldl applyClientOption defaultClient).heartbeatFrequency) ∧
    (¬(0 < (optsW.foldl applyClientOption defaultClient).heartbeatFrequency ∧
        (optsW.foldl applyClientOption defaultClient).leaseDuration <
          2 * (optsW.foldl applyClientOption defaultClient).heartbeatFrequency) ∧
      New (some .postgres) optsW = .ok (optsW.foldl applyClientOption defaultClient)) ∧
    defaultClient =
      { tableName := "locks", leaseDuration := 20000000000
        heartbeatFrequency := 5000000000, log := Logger.discard } :=
  ⟨(new_validation optsW).1,
   ⟨by decide, (new_validation optsW).2.1 .otherDriver (by decide)⟩,
   (new_validation optsW).2.2.1,
   ⟨by decide, (new_validation optsW).2.2.2.1 (by decide)⟩,
   (new_validation optsW).2.2.2.2⟩

/-- C5: Release is idempotent on the handle.  A Release call on a
handle whose isReleased flag is already set returns
LockAlreadyReleased and leaves the database and the handle untouched;
and any Release call leaves the flag set, so this applies from the
second call onward. -/
theorem release_idempotent (db db' : DB) (l l' : Lock) :
    (l.isReleased = true →
      releaseContext db l = (db, l, some .lockAlreadyReleased)) ∧
    (releaseContext db' l').2.1.isReleased = true := by
  constructor
  · intro h
    simp [releaseContext, Lock.IsReleased, h]
  · exact releaseContext_isReleased db' l'

/-- Witness for C5: a second Release on an already-released handle is a
no-op returning LockAlreadyReleased. -/
theorem release_idempotent_witness :
    lockReleased.isReleased = true ∧
    releaseContext dbJob lockReleased = (dbJob, lockReleased, some .lockAlreadyReleased) ∧
    (releaseContext dbJob lockA).2.1.isReleased = true :=
  ⟨by decide, (release_idempotent dbJob dbJob lockReleased lockA).1 (by decide),
   (release_idempotent dbJob dbJob lockReleased lockA).2⟩

/-- C6: Release semantics on a not-yet-released handle.  When the CAS
update matches no row, the handle is marked released, the heartbeat is
cancelled and LockAlreadyReleased is returned with the database
unchanged; when it matches, the handle is marked released with the
heartbeat cancelled and no error, other rows are untouched, and the
row remains free (rvn NULL) under keepOnRelease or is deleted
otherwise. -/
theorem storeRelease_semantics (db : DB) (l : Lock) :
    (casMatches db.rows l.name l.recordVersionNumber = false →
      storeRelease db l =
        (db, { l with isReleased := true, heartbeatCancelled := true },
         some .lockAlreadyReleased)) ∧
    (∀ r, db.rows l.name = some r → r.rvn = some l.recordVersionNumber →
      (storeRelease db l).2.1 = { l with isReleased := true, heartbeatCancelled := true } ∧
      (storeRelease db l).2.2 = none ∧
      (∀ n, n ≠ l.name → (storeRelease db l).1.rows n = db.rows n) ∧
      (l.keepOnRelease = true →
        (storeRelease db l).1.rows l.name = some ⟨none, r.data⟩) ∧
      (l.keepOnRelease = false →
        (storeRelease db l).1.rows l.name = none)) := by
  constructor
  · intro hm
    cases h : db.rows l.name with
    | none => simp [storeRelease, h]
    | some r =>
        have hc : ¬ r.rvn = some l.recordVersionNumber := by
          simp only [casMatches, h] at hm
          exact of_decide_eq_false hm
        simp [storeRelease, h, hc]
  · intro r h hc
    refine ⟨?_, ?_, ?_, ?_, ?_⟩
    · simp [storeRelease, h, hc]
    · simp [storeRelease, h, hc]
    · intro n hn
      simp only [storeRelease, h, hc]
      cases hk : l.keepOnRelease <;> simp [hk, hn]
    · intro hk
      simp [storeRelease, h, hc, hk]
    · intro hk
      simp [storeRelease, h, hc, hk]

/-- Witness for C6: releasing "job" while holding rvn 1 deletes the
row (default) or frees it (keepOnRelease), and a stale handle at rvn 0
gets LockAlreadyReleased with the table unchanged. -/
theorem storeRelease_semantics_witness :
    (casMatches dbJob.rows lockA.name lockA.recordVersionNumber = false ∧
     storeRelease dbJob lockA =
       (dbJob, { lockA with isReleased := true, heartbeatCancelled := true },
        some .lockAlreadyReleased)) ∧
    (dbJob.rows lockBKeep.name = some ⟨some 1, [7]⟩ ∧
     (⟨some 1, [7]⟩ : Row).rvn = some lockBKeep.recordVersionNumber ∧
     lockBKeep.keepOnRelease = true ∧
     (storeRelease dbJob lockBKeep).1.rows lockBKeep.name = some ⟨none, [7]⟩) ∧
    (dbJob.rows lockB.name = some ⟨some 1, [7]⟩ ∧
     lockB.keepOnRelease = false ∧
     (storeRelease dbJob lockB).1.rows lockB.name = none ∧
     (storeRelease dbJob lockB).2.2 = none) :=
  ⟨⟨by decide, (storeRelease_semantics dbJob lockA).1 (by decide)⟩,
   ⟨by decide, by decide, by decide,
    ((storeRelease_semantics dbJob lockBKeep).2 ⟨some 1, [7]⟩ (by decide)
      (by decide)).2.2.2.1 (by decide)⟩,
   ⟨by decide, by decide,
    ((storeRelease_semantics dbJob lockB).2 ⟨some 1, [7]⟩ (by decide)
      (by decide)).2.2.2.2 (by decide),
    ((storeRelease_semantics dbJob lockB).2 ⟨some 1, [7]⟩ (by decide)
      (by decide)).2.1⟩⟩

/-- C7: Frame property of a successful heartbeat.  storeHeartbeat that
succeeds changes only the row's record_version_number — the name keys
the row and its data is carried over — leaves every other row alone,
and changes nothing on the handle but its recordVersionNumber, which
becomes the freshly drawn value. -/
theorem storeHeartbeat_frame (db : DB) (l : Lock)
    (hs : (storeHeartbeat db l).2.2 = none) :
    ∃ r, db.rows l.name = some r ∧
      (storeHeartbeat db l).1.rows l.name = some ⟨some db.seq, r.data⟩ ∧
      (∀ n, n ≠ l.name → (storeHeartbeat db l).1.rows n = db.rows n) ∧
      (storeHeartbeat db l).2.1 = { l with recordVersionNumber := db.seq } := by
  cases h : db.rows l.name with
  | none => simp [storeHeartbeat, h] at hs
  | some r =>
      by_cases hc : r.rvn = some l.recordVersionNumber
      · refine ⟨r, rfl, ?_, ?_, ?_⟩
        · simp [storeHeartbeat, h, hc]
        · intro n hn
          simp [storeHeartbeat, h, hc, hn]
        · simp [storeHeartbeat, h, hc]
      · simp [storeHeartbeat, h, hc] at hs

/-- Witness for C7: a heartbeat by the holder of "job" at rvn 1 bumps
the row to rvn 2, keeps its payload, and touches nothing else. -/
theorem storeHeartbeat_frame_witness :
    (storeHeartbeat dbJob lockB).2.2 = none ∧
    ∃ r, dbJob.rows lockB.name = some r ∧
      (storeHeartbeat dbJob lockB).1.rows lockB.name = some ⟨some dbJob.seq, r.data⟩ ∧
      (∀ n, n ≠ lockB.name → (storeHeartbeat dbJob lockB).1.rows n = dbJob.rows n) ∧
      (storeHeartbeat dbJob lockB).2.1 = { lockB with recordVersionNumber := dbJob.seq } :=
  ⟨by decide, storeHeartbeat_frame dbJob lockB (by decide)⟩

/-- C8: Retry discipline.  The retry wrapper re-issues an operation
exactly when its outcome is classified FailedPrecondition — which
typedError assigns precisely to a PostgreSQL error whose SQLSTATE is
40001 — any other outcome, NotAcquired included, escapes to the caller
at once, and a FailedPrecondition-classified error is never
surfaced. -/
theorem retry_discipline (f : Nat → Option LockError) (fuel : Nat) :
    (∀ k e, f k = some e → isFailedPrecondition e = true →
      retryAttempts f k (fuel + 1) = retryAttempts f (k + 1) fuel) ∧
    (∀ k, (∀ e, f k = some e → isFailedPrecondition e = false) →
      retryAttempts f k (fuel + 1) = some (f k, k + 1)) ∧
    (∀ k r n, retryAttempts f k fuel = some (r, n) →
      ∀ e, r = some e → isFailedPrecondition e = false) ∧
    (∀ d, (∃ e, typedError (some d) = some e ∧ isFailedPrecondition e = true) ↔
      d = .pq "40001") := by
  refine ⟨?_, ?_, ?_, ?_⟩
  · intro k e hf hfp
    simp only [retryAttempts, hf, hfp, if_true]
  · intro k hall
    cases hf : f k with
    | none => simp [retryAttempts, hf]
    | some e => simp [retryAttempts, hf, hall e hf]
  · exact retryAttempts_not_fp f fuel
  · intro d
    constructor
    · rintro ⟨e, he, hfp⟩
      cases d with
      | noRows => simp [typedError] at he; subst he; simp [isFailedPrecondition] at hfp
      | netOp => simp [typedError] at he; subst he; simp [isFailedPrecondition] at hfp
      | generic t => simp [typedError] at he; subst he; simp [isFailedPrecondition] at hfp
      | pq code =>
          by_cases hcode : code = "40001"
          · rw [hcode]
          · simp [typedError, hcode] at he
            subst he
            simp [isFailedPrecondition] at hfp
    · intro hd
      subst hd
      exact ⟨.classified .failedPrecondition (.pq "40001"), by simp [typedError], rfl⟩

/-- Witness for C8: a serialization failure on the first run is
retried and never surfaced; the NotAcquired rerun escapes at once. -/
theorem retry_discipline_witness :
    (flakySerialization 0 = some (.classified .failedPrecondition (.pq "40001")) ∧
     isFailedPrecondition (.classified .failedPrecondition (.pq "40001")) = true ∧
     retryAttempts flakySerialization 0 3 = retryAttempts flakySerialization 1 2) ∧
    (retryAttempts flakySerialization 1 3 = some (flakySerialization 1, 2)) ∧
    (retryAttempts flakySerialization 0 3 = some (some .notAcquired, 2) ∧
     isFailedPrecondition .notAcquired = false) ∧
    ((∃ e, typedError (some (.pq "40001")) = some e ∧ isFailedPrecondition e = true) ↔
      (DriverError.pq "40001" : DriverError) = .pq "40001") :=
  ⟨⟨by decide, by decide,
    (retry_discipline flakySerialization 2).1 0
      (.classified .failedPrecondition (.pq "40001")) (by decide) (by decide)⟩,
   (retry_discipline flakySerialization 2).2.1 1
     (fun e he => by
       have : e = LockError.notAcquired := by
         simpa [flakySerialization] using he.symm
       rw [this]
       rfl),
   ⟨by decide,
    (retry_discipline flakySerialization 3).2.2.1 0 (some .notAcquired) 2 (by decide)
      .notAcquired rfl⟩,
   (retry_discipline flakySerialization 2).2.2.2 (.pq "40001")⟩

/-- C9: The handle's isReleased flag is monotonic.  A fresh handle
starts with the flag clear; release sets it on both of its paths, as
does heartbeat loss detection (zero rows affected by the CAS update);
and no client operation — acquire attempt, heartbeat, release, public
release, or the whole acquire loop — ever clears it once set. -/
theorem isReleased_monotonic (c : Client) (nm : String) (opts : List LockOption) :
    ((newLock c nm opts).isReleased = false) ∧
    (∀ db l, (storeRelease db l).2.1.isReleased = true) ∧
    (∀ db l, (storeHeartbeat db l).2.2 = some .lockAlreadyReleased →
      (storeHeartbeat db l).2.1.isReleased = true) ∧
    (∀ db l, l.isReleased = true →
      (storeAcquire db l).2.1.isReleased = true ∧
      (storeHeartbeat db l).2.1.isReleased = true ∧
      (storeRelease db l).2.1.isReleased = true ∧
      (releaseContext db l).2.1.isReleased = true) ∧
    (∀ cancelled interf db l fuel res,
      acquireContext cancelled interf db l fuel = some res →
      l.isReleased = true → res.state.2.isReleased = true) := by
  refine ⟨newLock_isReleased c nm opts, storeRelease_isReleased, storeHeartbeat_lost,
    ?_, ?_⟩
  · intro db l h
    exact ⟨by rw [storeAcquire_isReleased]; exact h,
      storeHeartbeat_isReleased db l h, storeRelease_isReleased db l,
      releaseContext_isReleased db l⟩
  · intro cancelled interf db l fuel res hrun hl
    refine acquireLoop_preserves (fun s : DB × Lock => s.2.isReleased = true)
      l.failIfLocked l.leaseDuration cancelled (acquireAttempt interf) ?_ fuel 0
      (db, l) res hrun hl
    intro k s hs
    simpa [acquireAttempt, storeAcquire_isReleased] using hs

/-- Witness for C9: loss detection on a stale heartbeat sets the flag,
and every operation keeps an already-set flag set. -/
theorem isReleased_monotonic_witness :
    (newLock defaultClient "job" []).isReleased = false ∧
    (storeRelease dbJob lockReleased).2.1.isReleased = true ∧
    ((storeHeartbeat dbJob lockA).2.2 = some .lockAlreadyReleased ∧
     (storeHeartbeat dbJob lockA).2.1.isReleased = true) ∧
    (lockReleased.isReleased = true ∧
     (storeAcquire dbJob lockReleased).2.1.isReleased = true ∧
     (storeHeartbeat dbJob lockReleased).2.1.isReleased = true ∧
     (storeRelease dbJob lockReleased).2.1.isReleased = true ∧
     (releaseContext dbJob lockReleased).2.1.isReleased = true) ∧
    (acquireContext cancelAll interfId dbJob lockReleased 1 =
       some ⟨(dbJob, lockReleased), false, some .notAcquired, 0, 0⟩ ∧
     (⟨(dbJob, lockReleased), false, some .notAcquired, 0, 0⟩ :
        LoopResult (DB × Lock)).state.2.isReleased = true) :=
  ⟨(isReleased_monotonic defaultClient "job" []).1,
   (isReleased_monotonic defaultClient "job" []).2.1 dbJob lockReleased,
   ⟨by decide, (isReleased_monotonic defaultClient "job" []).2.2.1 dbJob lockA (by decide)⟩,
   ⟨by decide, (isReleased_monotonic defaultClient "job" []).2.2.2.1 dbJob lockReleased (by decide)⟩,
   ⟨rfl, (isReleased_monotonic defaultClient "job" []).2.2.2.2 cancelAll interfId dbJob
     lockReleased 1 ⟨(dbJob, lockReleased), false, some .notAcquired, 0, 0⟩ rfl (by decide)⟩⟩

/-- C10: With failIfLocked, an attempt ending in NotAcquired makes
Acquire return the error together with the (non-nil) handle, whose
recordVersionNumber is the holder's rvn observed during the failed
attempt; on every other failure path of the loop — context done, or
any error other than NotAcquired under failIfLocked — no handle is
returned. -/
theorem acquire_failIfLocked_handle (db : DB) (l : Lock) (r : Row) (v : Int)
    (cancelled : Nat → Bool) (interf : Nat → DB → DB) (fuel : Nat) :
    (db.rows l.name = some r → r.rvn = some v → v ≠ l.recordVersionNumber →
      v ≠ db.seq →
      storeAcquire db l =
        (⟨db.rows, db.seq + 1⟩, { l with recordVersionNumber := v },
         some .notAcquired)) ∧
    (∀ db1 l1, l.failIfLocked = true → cancelled 0 = false →
      storeAcquire (interf 0 db) l = (db1, l1, some .notAcquired) →
      acquireContext cancelled interf db l (fuel + 1) =
        some ⟨(db1, l1), true, some .notAcquired, 0, 1⟩) ∧
    (∀ res, acquireContext cancelled interf db l fuel = some res →
      res.handleReturned = true → res.error ≠ none →
      res.error = some .notAcquired ∧ l.failIfLocked = true) := by
  refine ⟨?_, ?_, ?_⟩
  · intro h hv hne hfresh
    exact storeAcquire_blocked db l r v h hv hne hfresh
  · intro db1 l1 hfil hc hS
    unfold acquireContext
    rw [hfil, acquireLoop, if_neg (by simp [hc])]
    have hA : acquireAttempt interf 0 (db, l) = ((db1, l1), some .notAcquired) := by
      simp [acquireAttempt, hS]
    rw [hA]
    rfl
  · intro res hrun hh he
    exact acquireLoop_handle_error l.failIfLocked l.leaseDuration cancelled
      (acquireAttempt interf) fuel 0 (db, l) res hrun hh he

/-- Witness for C10: a fail-if-locked claimant of "job" observes the
holder's rvn 1 and gets it back on the returned handle with
NotAcquired. -/
theorem acquire_failIfLocked_handle_witness :
    (dbJob.rows lockAFail.name = some ⟨some 1, [7]⟩ ∧
     (⟨some 1, [7]⟩ : Row).rvn = some 1 ∧
     (1 : Int) ≠ lockAFail.recordVersionNumber ∧ (1 : Int) ≠ dbJob.seq ∧
     storeAcquire dbJob lockAFail =
       (⟨dbJob.rows, dbJob.seq + 1⟩,
        { lockAFail with recordVersionNumber := 1 }, some .notAcquired)) ∧
    (lockAFail.failIfLocked = true ∧ cancelTwo 0 = false ∧
     storeAcquire (interfId 0 dbJob) lockAFail =
       (dbJobBumped, lockAFailObs, some .notAcquired) ∧
     acquireContext cancelTwo interfId dbJob lockAFail 1 =
       some ⟨(dbJobBumped, lockAFailObs), true, some .notAcquired, 0, 1⟩) ∧
    (acquireContext cancelTwo interfId dbJob lockAFail 1 =
       some ⟨(dbJobBumped, lockAFailObs), true, some .notAcquired, 0, 1⟩ ∧
     (⟨(dbJobBumped, lockAFailObs), true, some .notAcquired, 0, 1⟩ :
        LoopResult (DB × Lock)).error = some .notAcquired ∧
     lockAFail.failIfLocked = true) :=
  ⟨⟨by decide, by decide, by decide, by decide,
    (acquire_failIfLocked_handle dbJob lockAFail ⟨some 1, [7]⟩ 1 cancelTwo interfId 0).1
      (by decide) (by decide) (by decide) (by decide)⟩,
   ⟨rfl, by decide, rfl,
    (acquire_failIfLocked_handle dbJob lockAFail ⟨some 1, [7]⟩ 1 cancelTwo interfId 0).2.1
      dbJobBumped lockAFailObs rfl (by decide) rfl⟩,
   ⟨rfl,
    ((acquire_failIfLocked_handle dbJob lockAFail ⟨some 1, [7]⟩ 1 cancelTwo interfId 1).2.2
      ⟨(dbJobBumped, lockAFailObs), true, some .notAcquired, 0, 1⟩ rfl rfl
      (by decide)).1,
    ((acquire_failIfLocked_handle dbJob lockAFail ⟨some 1, [7]⟩ 1 cancelTwo interfId 1).2.2
      ⟨(dbJobBumped, lockAFailObs), true, some .notAcquired, 0, 1⟩ rfl rfl
      (by decide)).2⟩⟩

end Pglock
